import Mathlib

/-!
Verification development for the save/sync change-tracking engine of the
gel-python client library.

The development shallowly embeds the data model and the operations of the
engine: tracked collections with WRITE and READ_WRITE modes and add/remove
delta logs, tracked entities with optional identities and changed-field
marker sets, the save plan with its grouping of ModelChanges into
QueryBatches, the refetch delta filter, the fail-closed commit
coordinator, link-slot reassignment with link properties, entity equality
and hashing, and the wire-protocol object codec decode path
(src/gel/protocol/codecs/object.pyx).

The save module, the tracked-list module and the pydantic model module of
the repository are not present among the sources (only their design
documentation is), so their operations are modelled from the spec; the
object codec is translated from src/gel/protocol/codecs/object.pyx.
-/

namespace GelSave

/-- Identity of a stored object (a stand-in for a UUID). -/
abbrev Id := Nat

/-- Modelled from the spec: the two collection modes of the tracked
multi-link collections (gel module tracked lists, absent from the
sources).  In WRITE mode membership is unknown; in READ_WRITE mode all
operations are permitted. -/
inductive Mode where
  | write
  | read_write
deriving DecidableEq, Repr

/-- Modelled from the spec: a tracked multi-valued relationship holder
(gel module tracked lists, absent from the sources): a mode, a base
snapshot of known members, and an added/removed delta log. -/
structure TrackedCollection where
  mode : Mode
  base : Finset Id
  added : Finset Id
  removed : Finset Id
deriving DecidableEq

/-- Modelled from the spec: the error raised by membership-reading
operations on a WRITE-mode collection. -/
inductive AccessError where
  | staleCollectionAccess
deriving DecidableEq, Repr

/-- Membership currently known to the client: base snapshot plus pending
additions minus pending removals.  Only meaningful in READ_WRITE mode. -/
def TrackedCollection.members (c : TrackedCollection) : Finset Id :=
  (c.base ∪ c.added) \ c.removed

/-- Modelled from the spec: replace(items) unconditionally sets READ_WRITE
mode with a new base snapshot and clears the deltas. -/
def TrackedCollection.replace (_c : TrackedCollection) (items : Finset Id) :
    TrackedCollection :=
  ⟨Mode.read_write, items, ∅, ∅⟩

/-- Modelled from the spec: add(item) is always recorded as a delta entry
regardless of mode. -/
def TrackedCollection.add (c : TrackedCollection) (x : Id) : TrackedCollection :=
  { c with added := insert x c.added }

/-- Modelled from the spec: remove(item) is always recorded as a delta
entry regardless of mode. -/
def TrackedCollection.remove (c : TrackedCollection) (x : Id) : TrackedCollection :=
  { c with removed := insert x c.removed }

/-- Modelled from the spec: size (len) of a collection fails in WRITE
mode, returns the known member count in READ_WRITE mode. -/
def TrackedCollection.size (c : TrackedCollection) : Except AccessError Nat :=
  match c.mode with
  | Mode.write => Except.error AccessError.staleCollectionAccess
  | Mode.read_write => Except.ok c.members.card

/-- Modelled from the spec: iteration over a collection fails in WRITE
mode, yields the known members in READ_WRITE mode. -/
def TrackedCollection.iterate (c : TrackedCollection) : Except AccessError (Finset Id) :=
  match c.mode with
  | Mode.write => Except.error AccessError.staleCollectionAccess
  | Mode.read_write => Except.ok c.members

/-- Modelled from the spec: the containment test fails in WRITE mode. -/
def TrackedCollection.containsMember (c : TrackedCollection) (x : Id) :
    Except AccessError Bool :=
  match c.mode with
  | Mode.write => Except.error AccessError.staleCollectionAccess
  | Mode.read_write => Except.ok (decide (x ∈ c.members))

/-- Modelled from the spec: truthiness of a collection fails in WRITE
mode. -/
def TrackedCollection.toBool (c : TrackedCollection) : Except AccessError Bool :=
  match c.mode with
  | Mode.write => Except.error AccessError.staleCollectionAccess
  | Mode.read_write => Except.ok (decide (c.members ≠ ∅))

/-- Modelled from the spec: commit seals change tracking on a collection,
clearing the added/removed delta sets without altering the
now-authoritative membership (the base snapshot absorbs the applied delta
in READ_WRITE mode) and without changing the mode. -/
def TrackedCollection.commitSeal (c : TrackedCollection) : TrackedCollection :=
  match c.mode with
  | Mode.write => ⟨Mode.write, c.base, ∅, ∅⟩
  | Mode.read_write => ⟨Mode.read_write, c.members, ∅, ∅⟩

/-- Modelled from the spec: the untouched multi-link collection of a
freshly constructed entity with no identity; its state is fully known to
be empty, so it is READ_WRITE. -/
def freshUntouchedCollection : TrackedCollection :=
  ⟨Mode.read_write, ∅, ∅, ∅⟩

/-- Modelled from the spec: the untouched multi-link collection of an
entity constructed from a known identity; the server-side state is
unknown, so it is WRITE. -/
def unfetchedCollection : TrackedCollection :=
  ⟨Mode.write, ∅, ∅, ∅⟩

/-- Modelled from the spec: a collection explicitly assigned by the
caller is a full replacement and is READ_WRITE on any entity. -/
def assignedCollection (items : Finset Id) : TrackedCollection :=
  TrackedCollection.replace unfetchedCollection items

/-- Collections materialised by the decoding pipeline are constructed
with mode DLIST_READ_WRITE (src/gel/protocol/codecs/object.pyx, the
dlist factory call in ObjectCodec.decode). -/
def codecBuiltCollection (items : Finset Id) : TrackedCollection :=
  ⟨Mode.read_write, items, ∅, ∅⟩

/-- A collection returned by a prior fetch: the query executor applies
the fetch filter (sub-filter, offset, limit abstracted as a membership
predicate) to the server membership, and the codec materialises the
result in READ_WRITE mode regardless of that filter. -/
def fetchedCollection (flt : Id → Bool) (serverMembers : Finset Id) :
    TrackedCollection :=
  codecBuiltCollection (serverMembers.filter (fun x => flt x = true))

/-- Modelled from the spec: the refetch delta filter built by the save
module refetch compiler for one multi-link (gel module save, absent from
the sources): all existing link target identities currently held by the
client-side field, plus all identities present in the just-applied
delta. -/
def refetchDeltaFilter (c : TrackedCollection) : Finset Id :=
  c.members ∪ c.added ∪ c.removed

/-- Modelled from the spec: a tracked entity: an optional identity, an
arena object index (stable per-object index standing in for Python object
identity), a concrete type name, scalar data, a changed-field marker set,
named tracked collections for multi-links, and link properties held on
the relationship wrapper of the slot the entity is bound to. -/
structure Entity where
  ident : Option Id
  objIdx : Nat
  tname : String
  data : List (String × Int)
  changedFields : Finset String
  colls : List (String × TrackedCollection)
  lprops : List (String × Int)
deriving DecidableEq

/-- Modelled from the spec: construction of a fresh entity (no identity):
all set fields are marked changed and every untouched multi-link
collection starts READ_WRITE with known-empty state. -/
def Entity.new (idx : Nat) (tn : String) (data : List (String × Int))
    (collNames : List String) : Entity :=
  ⟨none, idx, tn, data, (data.map Prod.fst).toFinset,
    collNames.map (fun n => (n, freshUntouchedCollection)), []⟩

/-- Modelled from the spec: construction of an entity from a known
identity: nothing is marked changed and every untouched multi-link
collection starts in WRITE mode (server state unknown). -/
def Entity.fromKnownId (i : Id) (idx : Nat) (tn : String)
    (collNames : List String) : Entity :=
  ⟨some i, idx, tn, [], ∅, collNames.map (fun n => (n, unfetchedCollection)), []⟩

/-- Modelled from the spec: explicit wholesale assignment of a multi-link
collection on any entity: the slot becomes a READ_WRITE collection with
the assigned items as its base snapshot, and the pointer is marked
changed. -/
def Entity.assignCollection (e : Entity) (n : String) (items : Finset Id) : Entity :=
  { e with
    colls := e.colls.map (fun p => if p.1 = n then (p.1, assignedCollection items) else p),
    changedFields := insert n e.changedFields }

/-- Modelled from the spec: an entity produced by a prior fetch whose
multi-link was selected under an arbitrary filter: the collection comes
from the decoding pipeline and is READ_WRITE. -/
def Entity.fetched (i : Id) (idx : Nat) (tn : String)
    (data : List (String × Int)) (collName : String) (flt : Id → Bool)
    (serverMembers : Finset Id) : Entity :=
  ⟨some i, idx, tn, data, ∅, [(collName, fetchedCollection flt serverMembers)], []⟩

/-- Kind of a model change: INSERT for new entities, UPDATE for existing
ones. -/
inductive ChangeKind where
  | insert
  | update
deriving DecidableEq, Repr

/-- Modelled from the spec: a ModelChange: the changes of one entity: the
kind, the concrete type name, the exact set of included pointer names,
and the arena index of the target entity. -/
structure ModelChange where
  kind : ChangeKind
  tname : String
  ptrs : Finset String
  entityIdx : Nat
deriving DecidableEq

/-- The grouping key of a ModelChange: kind, type, exact included
pointer-name set. -/
def shapeKey (m : ModelChange) : ChangeKind × String × Finset String :=
  (m.kind, m.tname, m.ptrs)

/-- Names of the multi-link collections of an entity that carry a pending
add or remove delta. -/
def Entity.dirtyCollNames (e : Entity) : Finset String :=
  ((e.colls.filter (fun p => decide (p.2.added ≠ ∅ ∨ p.2.removed ≠ ∅))).map
    Prod.fst).toFinset

/-- Modelled from the spec: the change record of one visited entity: a
NEW entity (no identity) yields an INSERT including all set fields; an
EXISTING entity yields an UPDATE including only the changed-field markers
and the dirty collection deltas, or no change at all when nothing is
pending. -/
def makeChange (idx : Nat) (e : Entity) : Option ModelChange :=
  match e.ident with
  | none =>
    some ⟨ChangeKind.insert, e.tname,
      (e.data.map Prod.fst).toFinset ∪ (e.colls.map Prod.fst).toFinset, idx⟩
  | some _ =>
    if e.changedFields = ∅ ∧ e.dirtyCollNames = ∅ then none
    else some ⟨ChangeKind.update, e.tname, e.changedFields ∪ e.dirtyCollNames, idx⟩

/-- Traversal of the reachable graph in arena order, emitting the change
records; the accumulator is the arena index of the next entity. -/
def planChangesAux : Nat → List Entity → List ModelChange
  | _, [] => []
  | i, e :: rest =>
    match makeChange i e with
    | none => planChangesAux (i + 1) rest
    | some ch => ch :: planChangesAux (i + 1) rest

/-- Modelled from the spec: the save plan builder: emit the change
records of the reachable graph in arena order. -/
def planChanges (g : List Entity) : List ModelChange :=
  planChangesAux 0 g

/-- Modelled from the spec: the maximum batch size, a few hundred
entities, bounding request payload size. -/
def maxBatchSize : Nat := 100

/-- Splitting of a list into consecutive chunks of at most n + 1
elements. -/
def chunked (n : Nat) : List α → List (List α)
  | [] => []
  | x :: xs => (x :: xs.take n) :: chunked n (xs.drop n)
termination_by l => l.length
decreasing_by
  simp only [List.length_drop, List.length_cons]
  omega

/-- Modelled from the spec: a QueryBatch: a group of same-shape
ModelChanges executed as one round trip. -/
structure QueryBatch where
  kind : ChangeKind
  tname : String
  ptrs : Finset String
  changes : List ModelChange
deriving DecidableEq

/-- The batches produced for one grouping key: the matching changes are
split into chunks of at most maxBatchSize entities, each chunk becoming
one batch of that shape. -/
def batchesForKey (changes : List ModelChange)
    (k : ChangeKind × String × Finset String) : List QueryBatch :=
  (chunked (maxBatchSize - 1)
      (changes.filter (fun m => decide (shapeKey m = k)))).map
    (fun grp => ⟨k.1, k.2.1, k.2.2, grp⟩)

/-- Modelled from the spec: the batching step: group the ModelChanges by
(kind, type, exact included pointer-name set) and split each group into
batches bounded by the maximum batch size. -/
def makeBatches (changes : List ModelChange) : List QueryBatch :=
  ((changes.map shapeKey).dedup).flatMap (batchesForKey changes)

/-- The full set of mutation batches a save call would issue for a
graph. -/
def saveBatches (g : List Entity) : List QueryBatch :=
  makeBatches (planChanges g)

/-- Modelled from the spec: the save executor: the insert batches and the
update batches of one save/sync call. -/
structure SaveExec where
  insertBatches : List QueryBatch
  updateBatches : List QueryBatch

/-- Modelled from the spec: the executor built from a plan: INSERT
batches form the insert round, UPDATE batches the update round. -/
def makeExecutor (changes : List ModelChange) : SaveExec :=
  ⟨(makeBatches changes).filter (fun b => decide (b.kind = ChangeKind.insert)),
   (makeBatches changes).filter (fun b => decide (b.kind = ChangeKind.update))⟩

/-- Recording of the identities generated for the new entities of one
insert batch into the identity map. -/
def execInsert (gen : Nat → Id) (s : List (Nat × Id)) (b : QueryBatch) :
    List (Nat × Id) :=
  s ++ b.changes.map (fun m => (m.entityIdx, gen m.entityIdx))

/-- The insert round: issue each insert batch in order, recording its
generated identities into the identity map before the next batch is
issued.  The trace pairs each issued batch kind with the identity map at
issue time. -/
def runInserts (gen : Nat → Id) (s : List (Nat × Id)) :
    List QueryBatch → List (ChangeKind × List (Nat × Id)) × List (Nat × Id)
  | [] => ([], s)
  | b :: bs =>
    let rest := runInserts gen (execInsert gen s b) bs
    ((ChangeKind.insert, s) :: rest.1, rest.2)

/-- The update round: issue each update batch in order; every update
batch is compiled against the full identity map recorded by the insert
round. -/
def runUpdates (ids : List (Nat × Id)) :
    List QueryBatch → List (ChangeKind × List (Nat × Id))
  | [] => []
  | _b :: bs => (ChangeKind.update, ids) :: runUpdates ids bs

/-- Modelled from the spec: the batch execution order of one save/sync
call: the single insert round runs first and records all generated
identities, then the single update round runs against the completed
identity map. -/
def runExec (gen : Nat → Id) (e : SaveExec) :
    List (ChangeKind × List (Nat × Id)) × List (Nat × Id) :=
  let ins := runInserts gen [] e.insertBatches
  (ins.1 ++ runUpdates ins.2 e.updateBatches, ins.2)

/-- Modelled from the spec: the commit step on one entity: the generated
identity is assigned to a NEW entity, the changed-field marker set is
cleared, and every tracked collection is sealed. -/
def commitEntity (genId : Id) (e : Entity) : Entity :=
  { e with
    ident := some (match e.ident with | none => genId | some j => j),
    changedFields := ∅,
    colls := e.colls.map (fun p => (p.1, p.2.commitSeal)) }

/-- The commit walk over the graph in arena order. -/
def commitGraphAux : Nat → (Nat → Id) → List Entity → List Entity
  | _, _, [] => []
  | i, gen, e :: rest => commitEntity (gen i) e :: commitGraphAux (i + 1) gen rest

/-- Modelled from the spec: the commit coordinator applied to the whole
reachable graph, assigning generated identities and sealing change
tracking on every visited entity. -/
def commitGraph (gen : Nat → Id) (g : List Entity) : List Entity :=
  commitGraphAux 0 gen g

/-- Modelled from the spec: the error surfaced when a store round trip
fails. -/
inductive SaveError where
  | batchExecution
deriving DecidableEq, Repr

/-- Modelled from the spec: one whole save/sync call: the network rounds
produce one outcome per batch; commit only begins after every round
succeeded, otherwise the call aborts with BatchExecutionError and the
caller-visible graph is returned untouched. -/
def saveCall (gen : Nat → Id) (g : List Entity) (outcomes : List Bool) :
    List Entity × Option SaveError :=
  if outcomes.all (fun b => b = true) then (commitGraph gen g, none)
  else (g, some SaveError.batchExecution)

/-- Modelled from the spec: a single-link slot carrying link properties:
the relationship wrapper holds the target identity and the link
properties as attributes of the wrapper itself. -/
structure LinkSlot where
  target : Option Id
  props : List (String × Int)
deriving DecidableEq

/-- Modelled from the spec: wholesale reassignment of a link slot: the
slot is replaced by a fresh relationship wrapper holding the new target
and only the newly supplied link properties; the previous wrapper and all
properties it held are discarded, even when the target is the very same
object. -/
def assignLink (_s : LinkSlot) (t : Id) (newProps : List (String × Int)) : LinkSlot :=
  ⟨some t, newProps⟩

/-- Lookup of a link property on a slot. -/
def LinkSlot.getProp (s : LinkSlot) (n : String) : Option Int :=
  s.props.lookup n

/-- Modelled from the spec: entity equality: two entities holding the
same identity are equal regardless of loaded data; an identity-less
entity is equal only to itself (same arena object index); link properties
are never consulted. -/
def entityEq (a b : Entity) : Bool :=
  match a.ident, b.ident with
  | some i, some j => decide (i = j)
  | none, none => decide (a.objIdx = b.objIdx)
  | _, _ => false

/-- Modelled from the spec: the error raised when hashing an identity-less
(new) entity. -/
inductive HashError where
  | unhashableNewObject
deriving DecidableEq, Repr

/-- Modelled from the spec: entity hashing: entities with an identity
hash by that identity; identity-less (new) entities are unhashable. -/
def entityHash (e : Entity) : Except HashError Id :=
  match e.ident with
  | some i => Except.ok i
  | none => Except.error HashError.unhashableNewObject

/-- Errors raised by ObjectCodec.decode
(src/gel/protocol/codecs/object.pyx): the NotImplementedError on sparse
codecs, the RuntimeError on an element-count mismatch, the RuntimeError
on trailing data after an element, the RuntimeError on an empty type
name, and buffer underruns surfaced by the frame reader. -/
inductive DecodeError where
  | notImplementedSparse
  | elemCountMismatch
  | trailingData
  | shortBuffer
  | missingTypeName
deriving DecidableEq, Repr

/-- A field subcodec: consumes an encoded element and returns the decoded
value together with the unconsumed remainder of the slice (the trailing
data the caller checks for). -/
abbrev SubCodec := List Nat → Except DecodeError (Int × List Nat)

/-- The wire frame of one encoded object as the decode loop sees it: the
declared element count followed by the encoded elements; none stands for
a NULL element (length -1). -/
structure EncodedObject where
  elemCount : Nat
  elems : List (Option (List Nat))

/-- The object codec state relevant to decode
(src/gel/protocol/codecs/object.pyx, ObjectCodec): sparseness, the field
subcodecs, the pointer names, and the link-property flags. -/
structure ObjCodec where
  isSparse : Bool
  fieldsCodecs : List SubCodec
  names : List String
  linkPropFlags : List Bool

/-- The return-type caches computed by adapt_to_return_type
(src/gel/protocol/codecs/object.pyx), abstracted to the data the decode
loop consults: the cached type-name element index and whether the type
map is polymorphic. -/
structure RetInfo where
  tnameIndex : Option Nat
  isPolymorphic : Bool

/-- The result of ObjectCodec.decode: the plain positional record of
`_decode_plain` when no return type is given, or the name-routed
result dictionary plus link-property dictionary of the typed path. -/
inductive DecodeResult where
  | plain (fields : List (Option Int))
  | model (fields : List (String × Option Int)) (lprops : List (String × Option Int))
deriving DecidableEq, Repr

/-- Decoding of one non-NULL element with its subcodec, including the
trailing-data check after the subcodec returns
(src/gel/protocol/codecs/object.pyx, the frb_get_len check). -/
def decodeOneElem (sc : SubCodec) (chunk : List Nat) : Except DecodeError Int :=
  match sc chunk with
  | Except.error e => Except.error e
  | Except.ok (v, rest) =>
    if rest = [] then Except.ok v else Except.error DecodeError.trailingData

/-- The loop of `_decode_plain`
(src/gel/protocol/codecs/object.pyx): for each of the counted elements,
read the element, decode NULL to none, otherwise decode through the
positional subcodec, and set the field. -/
def decodePlainAux :
    Nat → List SubCodec → List (Option (List Nat)) →
      Except DecodeError (List (Option Int))
  | 0, _, _ => Except.ok []
  | n + 1, codecs, elems =>
    match elems with
    | [] => Except.error DecodeError.shortBuffer
    | e :: erest =>
      match codecs with
      | [] => Except.error DecodeError.shortBuffer
      | sc :: crest =>
        match e with
        | none => (decodePlainAux n crest erest).map (fun vs => none :: vs)
        | some chunk =>
          match decodeOneElem sc chunk with
          | Except.error err => Except.error err
          | Except.ok v => (decodePlainAux n crest erest).map (fun vs => some v :: vs)

/-- The typed decode loop of ObjectCodec.decode
(src/gel/protocol/codecs/object.pyx): at the cached type-name index a
non-NULL element is skipped on non-polymorphic queries and captured as
the type name on polymorphic ones; other elements are decoded through
their subcodec and routed by flag into the link-property dictionary or
the result dictionary. -/
def decodeTypedAux (info : RetInfo) :
    Nat → Nat → List SubCodec → List String → List Bool →
      List (Option (List Nat)) →
      Except DecodeError
        (List (String × Option Int) × List (String × Option Int) × Option Int)
  | _, 0, _, _, _, _ => Except.ok ([], [], none)
  | i, n + 1, codecs, names, flags, elems =>
    match elems with
    | [] => Except.error DecodeError.shortBuffer
    | e :: erest =>
      match codecs, names, flags with
      | sc :: crest, nm :: nrest, fl :: frest =>
        let route := fun (elem : Option Int) =>
          (decodeTypedAux info (i + 1) n crest nrest frest erest).map
            (fun (res, lps, tn) =>
              if fl then (res, (nm, elem) :: lps, tn)
              else ((nm, elem) :: res, lps, tn))
        match e with
        | none => route none
        | some chunk =>
          if info.tnameIndex = some i ∧ ¬info.isPolymorphic then
            decodeTypedAux info (i + 1) n crest nrest frest erest
          else
            match decodeOneElem sc chunk with
            | Except.error err => Except.error err
            | Except.ok v =>
              if info.tnameIndex = some i then
                (decodeTypedAux info (i + 1) n crest nrest frest erest).map
                  (fun (res, lps, _) => (res, lps, some v))
              else route (some v)
      | _, _, _ => Except.error DecodeError.shortBuffer

/-- ObjectCodec.decode (src/gel/protocol/codecs/object.pyx): sparse
codecs are not decodable; then the element count read from the buffer is
checked against the number of field subcodecs and a RuntimeError is
raised on mismatch, before any element is read and before any field is
set; only then does the plain or typed decode loop populate the result,
with the polymorphic type-name check at the end of the typed path. -/
def ObjCodec.decode (c : ObjCodec) (rt : Option RetInfo) (buf : EncodedObject) :
    Except DecodeError DecodeResult :=
  if c.isSparse then Except.error DecodeError.notImplementedSparse
  else if buf.elemCount ≠ c.fieldsCodecs.length then
    Except.error DecodeError.elemCountMismatch
  else
    match rt with
    | none =>
      (decodePlainAux buf.elemCount c.fieldsCodecs buf.elems).map DecodeResult.plain
    | some info =>
      match decodeTypedAux info 0 buf.elemCount c.fieldsCodecs c.names
          c.linkPropFlags buf.elems with
      | Except.error err => Except.error err
      | Except.ok (res, lps, tn) =>
        if info.isPolymorphic ∧ tn = none then
          Except.error DecodeError.missingTypeName
        else Except.ok (DecodeResult.model res lps)

/-! Helper lemmas about sealed collections. -/

theorem commitSeal_mode (c : TrackedCollection) : c.commitSeal.mode = c.mode := by
  cases c with
  | mk m b a r => cases m <;> simp [TrackedCollection.commitSeal]

theorem commitSeal_added (c : TrackedCollection) : c.commitSeal.added = ∅ := by
  cases c with
  | mk m b a r => cases m <;> simp [TrackedCollection.commitSeal]

theorem commitSeal_removed (c : TrackedCollection) : c.commitSeal.removed = ∅ := by
  cases c with
  | mk m b a r => cases m <;> simp [TrackedCollection.commitSeal]

/-- Claim C2: every membership-reading operation (size, iteration,
containment, truthiness) on a WRITE-mode tracked collection fails with
StaleCollectionAccessError, deterministically, whatever the pending
add/remove deltas are (the collection is universally quantified), and
also after a save call has sealed the collection (commitSeal preserves
WRITE mode). -/
theorem write_mode_reads_always_stale (c : TrackedCollection) (x : Id)
    (h : c.mode = Mode.write) :
    c.size = Except.error AccessError.staleCollectionAccess ∧
    c.iterate = Except.error AccessError.staleCollectionAccess ∧
    c.containsMember x = Except.error AccessError.staleCollectionAccess ∧
    c.toBool = Except.error AccessError.staleCollectionAccess ∧
    c.commitSeal.size = Except.error AccessError.staleCollectionAccess ∧
    c.commitSeal.iterate = Except.error AccessError.staleCollectionAccess ∧
    c.commitSeal.containsMember x = Except.error AccessError.staleCollectionAccess ∧
    c.commitSeal.toBool = Except.error AccessError.staleCollectionAccess := by
  have h2 : c.commitSeal.mode = Mode.write := by rw [commitSeal_mode]; exact h
  refine ⟨?_, ?_, ?_, ?_, ?_, ?_, ?_, ?_⟩ <;>
    simp [TrackedCollection.size, TrackedCollection.iterate,
      TrackedCollection.containsMember, TrackedCollection.toBool, h, h2]

/-- Closed instance of claim C2: a WRITE-mode collection with nonempty
pending deltas still fails every membership read, before and after
sealing. -/
theorem write_mode_reads_always_stale_witness :
    (⟨Mode.write, ∅, {5}, {7}⟩ : TrackedCollection).mode = Mode.write ∧
    (⟨Mode.write, ∅, {5}, {7}⟩ : TrackedCollection).size =
      Except.error AccessError.staleCollectionAccess ∧
    (⟨Mode.write, ∅, {5}, {7}⟩ : TrackedCollection).commitSeal.toBool =
      Except.error AccessError.staleCollectionAccess :=
  ⟨rfl, (write_mode_reads_always_stale ⟨Mode.write, ∅, {5}, {7}⟩ 5 rfl).1,
    (write_mode_reads_always_stale ⟨Mode.write, ∅, {5}, {7}⟩ 5 rfl).2.2.2.2.2.2.2⟩

/-- Claim C3: the construction-mode table: a fresh (identity-less)
entity's untouched collections are READ_WRITE; an entity constructed
from a known identity has WRITE-mode untouched collections; an
explicitly assigned collection slot is READ_WRITE on any entity; and a
collection returned by a prior fetch is READ_WRITE whatever filter the
fetch applied. -/
theorem construction_mode_table :
    (∀ (idx : Nat) (tn : String) (data : List (String × Int))
        (collNames : List String),
      ∀ p ∈ (Entity.new idx tn data collNames).colls, p.2.mode = Mode.read_write) ∧
    (∀ (i : Id) (idx : Nat) (tn : String) (collNames : List String),
      ∀ p ∈ (Entity.fromKnownId i idx tn collNames).colls, p.2.mode = Mode.write) ∧
    (∀ (e : Entity) (n : String) (items : Finset Id),
      ∀ p ∈ (e.assignCollection n items).colls, p.1 = n →
        p.2.mode = Mode.read_write) ∧
    (∀ (i : Id) (idx : Nat) (tn : String) (data : List (String × Int))
        (cn : String) (flt : Id → Bool) (server : Finset Id),
      ∀ p ∈ (Entity.fetched i idx tn data cn flt server).colls,
        p.2.mode = Mode.read_write) := by
  refine ⟨?_, ?_, ?_, ?_⟩
  · intro idx tn data collNames p hp
    simp only [Entity.new, List.mem_map] at hp
    obtain ⟨n, _, rfl⟩ := hp
    rfl
  · intro i idx tn collNames p hp
    simp only [Entity.fromKnownId, List.mem_map] at hp
    obtain ⟨n, _, rfl⟩ := hp
    rfl
  · intro e n items p hp hn
    simp only [Entity.assignCollection, List.mem_map] at hp
    obtain ⟨q, _, rfl⟩ := hp
    by_cases hq : q.1 = n
    · simp [hq, assignedCollection, TrackedCollection.replace]
    · simp only [if_neg hq] at hn ⊢
      exact absurd hn hq
  · intro i idx tn data cn flt server p hp
    simp only [Entity.fetched, List.mem_cons, List.not_mem_nil, or_false] at hp
    subst hp
    rfl

/-- Closed instance of claim C3: on an entity built from a known
identity, the untouched collection is WRITE and an explicitly assigned
collection slot is READ_WRITE. -/
theorem construction_mode_table_witness :
    (("friends", unfetchedCollection) ∈
      (Entity.fromKnownId 7 0 "User" ["friends"]).colls) ∧
    unfetchedCollection.mode = Mode.write ∧
    (("friends", assignedCollection {1}) ∈
      ((Entity.fromKnownId 7 0 "User" ["friends"]).assignCollection ("friends")
        ({1} : Finset Id)).colls) ∧
    (assignedCollection {1}).mode = Mode.read_write :=
  ⟨by decide, construction_mode_table.2.1 7 0 "User" ["friends"]
      ("friends", unfetchedCollection) (by decide),
    by decide, construction_mode_table.2.2.1 (Entity.fromKnownId 7 0 "User" ["friends"])
      "friends" {1} ("friends", assignedCollection {1}) (by decide) rfl⟩

/-- Claim C4: the refetch delta filter equals the union of the
previously-known member identities (the base snapshot) and the
identities of the just-applied delta; on known members 1, 2, 3 after
add 4 and remove 2 it equals the set 1, 2, 3, 4. -/
theorem refetch_delta_filter_union :
    (∀ c : TrackedCollection,
      refetchDeltaFilter c = c.base ∪ (c.added ∪ c.removed)) ∧
    refetchDeltaFilter
        (((⟨Mode.read_write, {1, 2, 3}, ∅, ∅⟩ : TrackedCollection).add 4).remove 2) =
      {1, 2, 3, 4} := by
  constructor
  · intro c
    ext y
    simp only [refetchDeltaFilter, TrackedCollection.members, Finset.mem_union,
      Finset.mem_sdiff]
    tauto
  · decide

/-- Claim C1: fail-closed atomicity: when any batch outcome of the
network rounds is a failure, the save call surfaces
BatchExecutionError and returns the caller graph exactly as it was —
no generated identity is assigned, no changed-field marker set is
cleared, no collection delta is reset, because the commit steps never
begin. -/
theorem save_failed_round_mutates_nothing (gen : Nat → Id) (g : List Entity)
    (outcomes : List Bool) (h : false ∈ outcomes) :
    saveCall gen g outcomes = (g, some SaveError.batchExecution) ∧
    (saveCall gen g outcomes).1.map Entity.ident = g.map Entity.ident ∧
    (saveCall gen g outcomes).1.map Entity.changedFields = g.map Entity.changedFields ∧
    (saveCall gen g outcomes).1.map Entity.colls = g.map Entity.colls := by
  have hall : outcomes.all (fun b => b = true) = false := by
    rw [List.all_eq_false]
    exact ⟨false, h, by simp⟩
  have hmain : saveCall gen g outcomes = (g, some SaveError.batchExecution) := by
    unfold saveCall
    rw [hall]
    simp
  exact ⟨hmain, by rw [hmain], by rw [hmain], by rw [hmain]⟩

/-- Closed instance of claim C1: a graph holding a new entity with a
pending delta is returned untouched when the second of two batches
fails. -/
theorem save_failed_round_mutates_nothing_witness :
    (false ∈ [true, false]) ∧
    saveCall (fun i => i + 100)
        [Entity.new 0 "User" [("n", 1)] ["friends"]] [true, false] =
      ([Entity.new 0 "User" [("n", 1)] ["friends"]],
        some SaveError.batchExecution) :=
  ⟨by decide,
    (save_failed_round_mutates_nothing (fun i => i + 100)
      [Entity.new 0 "User" [("n", 1)] ["friends"]] [true, false] (by decide)).1⟩

/-! Helper lemmas for commit sealing and idempotence. -/

theorem commitEntity_colls (gid : Id) (e : Entity) :
    (commitEntity gid e).colls = e.colls.map (fun p => (p.1, p.2.commitSeal)) := rfl

theorem filter_dirty_map_seal (l : List (String × TrackedCollection)) :
    ((l.map (fun p => (p.1, p.2.commitSeal))).filter
      (fun p => decide (p.2.added ≠ ∅ ∨ p.2.removed ≠ ∅))) = [] := by
  induction l with
  | nil => rfl
  | cons q rest ih =>
    have happ : decide ((q.1, q.2.commitSeal).2.added ≠ ∅ ∨
        (q.1, q.2.commitSeal).2.removed ≠ ∅) = false := by
      simp [commitSeal_added, commitSeal_removed]
    rw [List.map_cons, List.filter_cons, happ]
    simpa using ih

theorem commitEntity_dirtyCollNames (gid : Id) (e : Entity) :
    (commitEntity gid e).dirtyCollNames = ∅ := by
  have hnil :
      ((commitEntity gid e).colls.filter
        (fun p => decide (p.2.added ≠ ∅ ∨ p.2.removed ≠ ∅))) = [] := by
    rw [commitEntity_colls]
    exact filter_dirty_map_seal e.colls
  unfold Entity.dirtyCollNames
  rw [hnil]
  rfl

theorem makeChange_commitEntity (idx : Nat) (gid : Id) (e : Entity) :
    makeChange idx (commitEntity gid e) = none := by
  have hd := commitEntity_dirtyCollNames gid e
  have hc : (commitEntity gid e).changedFields = ∅ := rfl
  have hi : (commitEntity gid e).ident =
      some (match e.ident with | none => gid | some j => j) := rfl
  simp [makeChange, hi, hc, hd]

theorem planChangesAux_commitGraphAux (gen : Nat → Id) :
    ∀ (g : List Entity) (i j : Nat),
      planChangesAux i (commitGraphAux j gen g) = [] := by
  intro g
  induction g with
  | nil => intro i j; rfl
  | cons e rest ih =>
    intro i j
    simp only [commitGraphAux, planChangesAux, makeChange_commitEntity]
    exact ih (i + 1) (j + 1)

theorem makeBatches_nil : makeBatches [] = [] := rfl

/-- Claim C7: idempotence after commit: a save call that succeeded
returns the committed graph, and saving that graph again while
unmodified issues zero mutation batches — commit seals tracking so the
second save is a no-op. -/
theorem save_idempotent_after_commit (gen : Nat → Id) (g : List Entity)
    (outcomes : List Bool) (h : (saveCall gen g outcomes).2 = none) :
    saveBatches (saveCall gen g outcomes).1 = [] := by
  unfold saveCall at h ⊢
  by_cases hall : outcomes.all (fun b => b = true) = true
  · simp only [if_pos hall]
    show saveBatches (commitGraph gen g) = []
    unfold saveBatches planChanges commitGraph
    rw [planChangesAux_commitGraphAux]
    rfl
  · rw [if_neg hall] at h
    exact absurd h (by simp)

/-- Closed instance of claim C7: after a successful save of a mixed
new/existing graph, re-running save issues zero batches. -/
theorem save_idempotent_after_commit_witness :
    (saveCall (fun i => i + 100)
        [Entity.new 0 "User" [("n", 1)] ["friends"],
          Entity.fromKnownId 7 1 "User" ["friends"]] [true, true]).2 = none ∧
    saveBatches
        (saveCall (fun i => i + 100)
          [Entity.new 0 "User" [("n", 1)] ["friends"],
            Entity.fromKnownId 7 1 "User" ["friends"]] [true, true]).1 = [] :=
  ⟨rfl,
    save_idempotent_after_commit (fun i => i + 100)
      [Entity.new 0 "User" [("n", 1)] ["friends"],
        Entity.fromKnownId 7 1 "User" ["friends"]] [true, true] rfl⟩

/-! Helper lemmas for the execution order of the save executor. -/

theorem runInserts_trace_kinds (gen : Nat → Id) :
    ∀ (bs : List QueryBatch) (s : List (Nat × Id)),
      (runInserts gen s bs).1.map Prod.fst =
        List.replicate bs.length ChangeKind.insert := by
  intro bs
  induction bs with
  | nil => intro s; rfl
  | cons b rest ih =>
    intro s
    simp only [runInserts, List.map_cons, List.length_cons,
      List.replicate_succ]
    rw [ih (execInsert gen s b)]

theorem runInserts_trace_mem (gen : Nat → Id) :
    ∀ (bs : List QueryBatch) (s : List (Nat × Id)) st,
      st ∈ (runInserts gen s bs).1 → st.1 = ChangeKind.insert := by
  intro bs
  induction bs with
  | nil =>
    intro s st hst
    simp [runInserts] at hst
  | cons b rest ih =>
    intro s st hst
    simp only [runInserts, List.mem_cons] at hst
    cases hst with
    | inl h => rw [h]
    | inr h => exact ih (execInsert gen s b) st h

theorem runInserts_final (gen : Nat → Id) :
    ∀ (bs : List QueryBatch) (s : List (Nat × Id)),
      (runInserts gen s bs).2 =
        s ++ bs.flatMap
          (fun b => b.changes.map (fun m => (m.entityIdx, gen m.entityIdx))) := by
  intro bs
  induction bs with
  | nil => intro s; simp [runInserts]
  | cons b rest ih =>
    intro s
    simp only [runInserts, List.flatMap_cons]
    rw [ih (execInsert gen s b)]
    simp [execInsert, List.append_assoc]

theorem runUpdates_trace_kinds (ids : List (Nat × Id)) :
    ∀ (bs : List QueryBatch),
      (runUpdates ids bs).map Prod.fst =
        List.replicate bs.length ChangeKind.update := by
  intro bs
  induction bs with
  | nil => rfl
  | cons b rest ih =>
    simp only [runUpdates, List.map_cons, List.length_cons, List.replicate_succ]
    rw [ih]

theorem runUpdates_trace_mem (ids : List (Nat × Id)) :
    ∀ (bs : List QueryBatch) st, st ∈ runUpdates ids bs → st.2 = ids := by
  intro bs
  induction bs with
  | nil =>
    intro st hst
    simp [runUpdates] at hst
  | cons b rest ih =>
    intro st hst
    simp only [runUpdates, List.mem_cons] at hst
    cases hst with
    | inl h => rw [h]
    | inr h => exact ih st h

/-- Claim C5: batch execution order: the trace of one save/sync call is
exactly one insert round followed by one update round — the kinds of the
issued batches form a block of INSERTs followed by a block of UPDATEs
— the final identity map holds the identity recorded for every entity of
every insert batch, and every UPDATE batch is issued against that
completed identity map, so no UPDATE runs before the insert round
finished and recorded its identities. -/
theorem insert_round_precedes_update_round (gen : Nat → Id) (e : SaveExec) :
    (runExec gen e).1.map Prod.fst =
      List.replicate e.insertBatches.length ChangeKind.insert ++
        List.replicate e.updateBatches.length ChangeKind.update ∧
    (runExec gen e).2 =
      e.insertBatches.flatMap
        (fun b => b.changes.map (fun m => (m.entityIdx, gen m.entityIdx))) ∧
    (∀ st ∈ (runExec gen e).1,
      st.1 = ChangeKind.update → st.2 = (runExec gen e).2) := by
  refine ⟨?_, ?_, ?_⟩
  · show ((runInserts gen [] e.insertBatches).1 ++
      runUpdates (runInserts gen [] e.insertBatches).2 e.updateBatches).map
        Prod.fst = _
    rw [List.map_append, runInserts_trace_kinds gen e.insertBatches [],
      runUpdates_trace_kinds]
  · show (runInserts gen [] e.insertBatches).2 = _
    rw [runInserts_final gen e.insertBatches []]
    rfl
  · intro st hst hupd
    have hsplit : st ∈ (runInserts gen [] e.insertBatches).1 ∨
        st ∈ runUpdates (runInserts gen [] e.insertBatches).2 e.updateBatches := by
      simpa [runExec] using List.mem_append.mp hst
    cases hsplit with
    | inl h =>
      have := runInserts_trace_mem gen e.insertBatches [] st h
      rw [hupd] at this
      cases this
    | inr h =>
      show st.2 = (runInserts gen [] e.insertBatches).2
      exact runUpdates_trace_mem _ e.updateBatches st h

/-- Closed instance of claim C5: with one insert batch and one update
batch, the trace kinds are INSERT then UPDATE. -/
theorem insert_round_precedes_update_round_witness :
    (runExec (fun i => i + 100)
        ⟨[⟨ChangeKind.insert, "User", ∅, [⟨ChangeKind.insert, "User", ∅, 0⟩]⟩],
          [⟨ChangeKind.update, "User", ∅, [⟨ChangeKind.update, "User", ∅, 1⟩]⟩]⟩).1.map
      Prod.fst = [ChangeKind.insert, ChangeKind.update] :=
  (insert_round_precedes_update_round (fun i => i + 100)
    ⟨[⟨ChangeKind.insert, "User", ∅, [⟨ChangeKind.insert, "User", ∅, 0⟩]⟩],
      [⟨ChangeKind.update, "User", ∅, [⟨ChangeKind.update, "User", ∅, 1⟩]⟩]⟩).1

/-! Helper lemmas for batching: chunk splitting and group-by
permutation. -/

theorem chunked_flatten (n : Nat) : ∀ (l : List α), (chunked n l).flatten = l
  | [] => by simp [chunked]
  | x :: xs => by
    rw [chunked]
    have ih := chunked_flatten n (xs.drop n)
    simp only [List.flatten_cons, ih]
    simp [List.take_append_drop]
termination_by l => l.length
decreasing_by
  simp only [List.length_drop, List.length_cons]
  omega

theorem chunked_mem (n : Nat) : ∀ (l : List α) (c : List α), c ∈ chunked n l →
    c.length ≤ n + 1 ∧ c ≠ [] ∧ ∀ a ∈ c, a ∈ l
  | [], c => by simp [chunked]
  | x :: xs, c => by
    rw [chunked]
    intro hc
    cases hc with
    | head =>
      refine ⟨?_, by simp, ?_⟩
      · have := List.length_take_le n xs
        simp only [List.length_cons]
        omega
      · intro a ha
        cases ha with
        | head => exact List.mem_cons_self _ _
        | tail _ h => exact List.mem_cons_of_mem _ (List.mem_of_mem_take h)
    | tail _ h =>
      have ih := chunked_mem n (xs.drop n) c h
      exact ⟨ih.1, ih.2.1, fun a ha =>
        List.mem_cons_of_mem _ (List.mem_of_mem_drop (ih.2.2 a ha))⟩
termination_by l => l.length
decreasing_by
  simp only [List.length_drop, List.length_cons]
  omega

theorem flatMap_filter_key_perm {α κ : Type _} [DecidableEq κ] (key : α → κ) :
    ∀ (keys : List κ) (l : List α), keys.Nodup → (∀ a ∈ l, key a ∈ keys) →
      (keys.flatMap (fun k => l.filter (fun a => decide (key a = k)))).Perm l := by
  intro keys
  induction keys with
  | nil =>
    intro l _ hall
    have hl : l = [] := by
      cases l with
      | nil => rfl
      | cons a t => exact absurd (hall a (List.mem_cons_self a t)) (by simp)
    simp [hl]
  | cons k ks ih =>
    intro l hnd hall
    have hk : k ∉ ks := (List.nodup_cons.mp hnd).1
    have hnd2 : ks.Nodup := (List.nodup_cons.mp hnd).2
    rw [List.flatMap_cons]
    have hcong : ks.flatMap (fun k2 => l.filter (fun a => decide (key a = k2))) =
        ks.flatMap (fun k2 =>
          (l.filter (fun a => !decide (key a = k))).filter
            (fun a => decide (key a = k2))) := by
      apply List.flatMap_congr
      intro k2 hk2
      rw [List.filter_filter]
      apply List.filter_congr
      intro a _
      by_cases hka : key a = k2
      · have hk2k : ¬ k2 = k := fun h => hk (h ▸ hk2)
        have : ¬ key a = k := fun hkk => hk2k (hka ▸ hkk)
        simp [hka, this, hk2k]
      · simp [hka]
    rw [hcong]
    have hperm2 : (ks.flatMap (fun k2 =>
        (l.filter (fun a => !decide (key a = k))).filter
          (fun a => decide (key a = k2)))).Perm
        (l.filter (fun a => !decide (key a = k))) := by
      apply ih _ hnd2
      intro a ha
      have hal : a ∈ l := List.mem_of_mem_filter ha
      have hne : ¬ key a = k := by
        have := (List.mem_filter.mp ha).2
        simpa using this
      have := hall a hal
      cases List.mem_cons.mp this with
      | inl h => exact absurd h hne
      | inr h => exact h
    refine List.Perm.trans (List.Perm.append_left _ hperm2) ?_
    exact List.filter_append_perm _ l

/-- Claim C6: batching: the ModelChanges are grouped by (kind, type,
exact included pointer-name set); every batch is nonempty, holds only
changes of its own shape, and is bounded by the maximum batch size; and
the batches together carry exactly the original changes — an oversized
group is split into several batches of identical shape rather than
rejected. -/
theorem batching_shape_bound_split (changes : List ModelChange) :
    (∀ b ∈ makeBatches changes,
      b.changes.length ≤ maxBatchSize ∧
      b.changes ≠ [] ∧
      ∀ m ∈ b.changes, m.kind = b.kind ∧ m.tname = b.tname ∧ m.ptrs = b.ptrs) ∧
    ((makeBatches changes).flatMap QueryBatch.changes).Perm changes := by
  constructor
  · intro b hb
    unfold makeBatches at hb
    obtain ⟨k, hkmem, hbk⟩ := List.mem_flatMap.mp hb
    unfold batchesForKey at hbk
    obtain ⟨grp, hgrp, hbeq⟩ := List.mem_map.mp hbk
    have hch := chunked_mem (maxBatchSize - 1) _ grp hgrp
    subst hbeq
    refine ⟨?_, hch.2.1, ?_⟩
    · have : maxBatchSize - 1 + 1 = maxBatchSize := by decide
      rw [← this]
      exact hch.1
    · intro m hm
      have hmf := hch.2.2 m hm
      have hkey : shapeKey m = k := by
        have := (List.mem_filter.mp hmf).2
        simpa using this
      have h1 : m.kind = k.1 := congrArg (fun t => t.1) hkey
      have h2 : m.tname = k.2.1 := congrArg (fun t => t.2.1) hkey
      have h3 : m.ptrs = k.2.2 := congrArg (fun t => t.2.2) hkey
      exact ⟨h1, h2, h3⟩
  · unfold makeBatches
    rw [List.flatMap_assoc]
    have hinner : ∀ k, (batchesForKey changes k).flatMap QueryBatch.changes =
        changes.filter (fun m => decide (shapeKey m = k)) := by
      intro k
      unfold batchesForKey
      rw [List.flatMap_map]
      have : (chunked (maxBatchSize - 1)
          (changes.filter (fun m => decide (shapeKey m = k)))).flatMap
            (fun grp => grp) =
          (chunked (maxBatchSize - 1)
            (changes.filter (fun m => decide (shapeKey m = k)))).flatten := by
        rw [List.flatten_eq_flatMap]
        rfl
      rw [this, chunked_flatten]
    rw [List.flatMap_congr (fun k _ => hinner k)]
    apply flatMap_filter_key_perm shapeKey
    · exact List.nodup_dedup _
    · intro a ha
      exact List.mem_dedup.mpr (List.mem_map_of_mem shapeKey ha)

/-- Closed instance of claim C6: two same-shape changes and one
different-shape change produce batches whose contents are a permutation
of the input. -/
theorem batching_shape_bound_split_witness :
    ((makeBatches
        [⟨ChangeKind.insert, "User", ∅, 0⟩, ⟨ChangeKind.insert, "User", ∅, 1⟩,
          ⟨ChangeKind.update, "Post", ∅, 2⟩]).flatMap QueryBatch.changes).Perm
      [⟨ChangeKind.insert, "User", ∅, 0⟩, ⟨ChangeKind.insert, "User", ∅, 1⟩,
        ⟨ChangeKind.update, "Post", ∅, 2⟩] :=
  (batching_shape_bound_split
    [⟨ChangeKind.insert, "User", ∅, 0⟩, ⟨ChangeKind.insert, "User", ∅, 1⟩,
      ⟨ChangeKind.update, "Post", ∅, 2⟩]).2

/-! Helper lemma for association-list lookup. -/

theorem lookup_eq_none_of_not_mem_keys (ps : List (String × Int)) (n : String)
    (h : n ∉ ps.map Prod.fst) : ps.lookup n = none := by
  induction ps with
  | nil => rfl
  | cons q rest ih =>
    obtain ⟨k, v⟩ := q
    simp only [List.map_cons, List.mem_cons] at h
    push_neg at h
    have hne : (n == k) = false := by
      simp [h.1]
    rw [List.lookup_cons, hne]
    exact ih h.2

/-- Claim C8: wholesale reassignment of a link slot carrying link
properties — including assigning the very same target that is already
bound — replaces the relationship wrapper, so only the newly supplied
properties remain and every previously held property whose name is not
newly supplied reads back as absent. -/
theorem link_reassignment_discards_props (s : LinkSlot) (t : Id)
    (ps : List (String × Int)) (h : s.target = some t) :
    (assignLink s t ps).props = ps ∧
    (assignLink s t ps).target = some t ∧
    (∀ n v, (n, v) ∈ s.props → n ∉ ps.map Prod.fst →
      (assignLink s t ps).getProp n = none) := by
  refine ⟨rfl, rfl, ?_⟩
  intro n v _ hnot
  show (assignLink s t ps).props.lookup n = none
  exact lookup_eq_none_of_not_mem_keys ps n hnot

/-- Closed instance of claim C8: a slot bound to target 5 with
properties a, b, c, reassigned to the same target 5 with only a, loses b:
reading b afterwards yields none. -/
theorem link_reassignment_discards_props_witness :
    (⟨some 5, [("a", 1), ("b", 2), ("c", 3)]⟩ : LinkSlot).target = some 5 ∧
    (assignLink ⟨some 5, [("a", 1), ("b", 2), ("c", 3)]⟩ 5 [("a", 9)]).getProp ("b") =
      none :=
  ⟨rfl,
    (link_reassignment_discards_props ⟨some 5, [("a", 1), ("b", 2), ("c", 3)]⟩ 5
        [("a", 9)] rfl).2.2 ("b") 2 (by decide) (by decide)⟩

/-- Claim C10: entity equality and hashing: two entities holding the
same identity are equal whatever their loaded data; an identity-less
entity is equal exactly to itself (same arena object index and likewise
identity-less); link properties never affect equality; entities with an
identity hash successfully by their identity while identity-less (new)
entities are unhashable. -/
theorem entity_equality_hashing :
    (∀ (a b : Entity) (i : Id), a.ident = some i → b.ident = some i →
      entityEq a b = true) ∧
    (∀ a b : Entity, a.ident = none →
      (entityEq a b = true ↔ b.ident = none ∧ a.objIdx = b.objIdx)) ∧
    (∀ (a b : Entity) (lp lp2 : List (String × Int)),
      entityEq { a with lprops := lp } { b with lprops := lp2 } = entityEq a b) ∧
    (∀ (a : Entity) (i : Id), a.ident = some i → entityHash a = Except.ok i) ∧
    (∀ a : Entity, a.ident = none →
      entityHash a = Except.error HashError.unhashableNewObject) := by
  refine ⟨?_, ?_, ?_, ?_, ?_⟩
  · intro a b i ha hb
    simp [entityEq, ha, hb]
  · intro a b ha
    cases hb : b.ident with
    | none => simp [entityEq, ha, hb]
    | some j => simp [entityEq, ha, hb]
  · intro a b lp lp2
    rfl
  · intro a i ha
    simp [entityHash, ha]
  · intro a ha
    simp [entityHash, ha]

/-- Closed instance of claim C10: two entities with identity 5 but
different data and link properties compare equal; a fresh entity is
unhashable. -/
theorem entity_equality_hashing_witness :
    (⟨some 5, 0, "User", [("n", 1)], ∅, [], []⟩ : Entity).ident = some 5 ∧
    (⟨some 5, 1, "User", [("n", 2)], ∅, [], [("w", 3)]⟩ : Entity).ident = some 5 ∧
    entityEq ⟨some 5, 0, "User", [("n", 1)], ∅, [], []⟩
      ⟨some 5, 1, "User", [("n", 2)], ∅, [], [("w", 3)]⟩ = true ∧
    entityHash ⟨none, 2, "User", [], ∅, [], []⟩ =
      Except.error HashError.unhashableNewObject :=
  ⟨rfl, rfl,
    entity_equality_hashing.1 ⟨some 5, 0, "User", [("n", 1)], ∅, [], []⟩
      ⟨some 5, 1, "User", [("n", 2)], ∅, [], [("w", 3)]⟩ 5 rfl rfl,
    entity_equality_hashing.2.2.2.2 ⟨none, 2, "User", [], ∅, [], []⟩ rfl⟩

/-- Claim C9: ObjectCodec.decode checks the encoded element count
against the number of field subcodecs before reading any element: on a
(non-sparse) codec, any buffer whose declared element count differs from
the codec arity is rejected with the RuntimeError, whatever return type
is requested and whatever the buffer holds; and conversely any decode
that returns an object at all had a matching element count — a decoded
object is never partially populated from a malformed record. -/
theorem object_decode_count_mismatch_guard (c : ObjCodec) (rt : Option RetInfo)
    (buf : EncodedObject) (hs : c.isSparse = false)
    (hc : buf.elemCount ≠ c.fieldsCodecs.length) :
    c.decode rt buf = Except.error DecodeError.elemCountMismatch ∧
    (∀ (c2 : ObjCodec) (rt2 : Option RetInfo) (buf2 : EncodedObject)
        (r : DecodeResult), c2.decode rt2 buf2 = Except.ok r →
      buf2.elemCount = c2.fieldsCodecs.length) := by
  constructor
  · unfold ObjCodec.decode
    rw [hs]
    simp only [Bool.false_eq_true, if_false]
    rw [if_pos hc]
  · intro c2 rt2 buf2 r hok
    unfold ObjCodec.decode at hok
    by_cases hs2 : c2.isSparse = true
    · rw [if_pos hs2] at hok
      cases hok
    · simp only [hs2, if_false] at hok
      by_cases hc2 : buf2.elemCount ≠ c2.fieldsCodecs.length
      · rw [if_pos hc2] at hok
        cases hok
      · exact Decidable.not_not.mp hc2

/-- Closed instance of claim C9: a non-sparse codec with one field
subcodec rejects a buffer declaring two elements. -/
theorem object_decode_count_mismatch_guard_witness :
    (⟨false, [fun ch => Except.ok (0, ch.drop ch.length)], ["x"],
        [false]⟩ : ObjCodec).isSparse = false ∧
    (⟨2, []⟩ : EncodedObject).elemCount ≠
      (⟨false, [fun ch => Except.ok (0, ch.drop ch.length)], ["x"],
        [false]⟩ : ObjCodec).fieldsCodecs.length ∧
    ObjCodec.decode
        ⟨false, [fun ch => Except.ok (0, ch.drop ch.length)], ["x"], [false]⟩
        none ⟨2, []⟩ =
      Except.error DecodeError.elemCountMismatch :=
  ⟨rfl, by simp,
    (object_decode_count_mismatch_guard
      ⟨false, [fun ch => Except.ok (0, ch.drop ch.length)], ["x"], [false]⟩
      none ⟨2, []⟩ rfl (by simp)).1⟩

end GelSave
